import Mathlib

/-!
Shallow embedding of the foodgram backend (`fgapp/views.py`, `fgapp/filters.py`,
`fgapp/admin.py`).  Database tables are lists of rows; query sets are lists;
HTTP responses are a status code plus an optional error body.  The Django
model classes themselves (`fgapp/models.py`, `users/models.py`) are not part
of the shown sources, so the row shapes are modelled from the specification's
data-model section.
-/

namespace Fgapp

/-- Modelled from the spec: a user record (users/models.py is not shown).
Only the primary key and the username (used by `str(user)` in the
subscribe-delete error message) matter here. -/
structure User where
  id : Nat
  username : String
  deriving DecidableEq, Repr

/-- Modelled from the spec: a recipe row — author reference, name, text,
publish timestamp.  Tags and ingredient lines live in join tables. -/
structure Recipe where
  id : Nat
  author : Nat
  name : String
  text : String
  pub_date : Nat
  deriving DecidableEq, Repr

/-- Modelled from the spec: a tag row with a unique slug. -/
structure Tag where
  id : Nat
  name : String
  slug : String
  deriving DecidableEq, Repr

/-- Modelled from the spec: an ingredient row. -/
structure Ingredient where
  id : Nat
  name : String
  measurement_unit : String
  deriving DecidableEq, Repr

/-- Modelled from the spec: a RecipeTags join row. -/
structure RecipeTags where
  id : Nat
  recipe : Nat
  tag : Nat
  deriving DecidableEq, Repr

/-- Modelled from the spec: a RecipeIngredients join row carrying an amount. -/
structure RecipeIngredients where
  id : Nat
  recipe : Nat
  ingredient : Nat
  amount : Nat
  deriving DecidableEq, Repr

/-- Modelled from the spec: a FavoriteRecipe (user, recipe) membership row. -/
structure FavoriteRecipe where
  id : Nat
  user : Nat
  recipe : Nat
  deriving DecidableEq, Repr

/-- Modelled from the spec: a ShoppingCart (user, recipe) membership row. -/
structure ShoppingCart where
  id : Nat
  user : Nat
  recipe : Nat
  deriving DecidableEq, Repr

/-- Modelled from the spec: a Subscribe (user, subscribing) follow row. -/
structure Subscribe where
  id : Nat
  user : Nat
  subscribing : Nat
  deriving DecidableEq, Repr

/-- The relational store: one list of rows per table. -/
structure DB where
  users : List User
  recipes : List Recipe
  tags : List Tag
  ingredients : List Ingredient
  recipeTags : List RecipeTags
  recipeIngredients : List RecipeIngredients
  favorites : List FavoriteRecipe
  cart : List ShoppingCart
  subscribes : List Subscribe
  deriving DecidableEq, Repr

/-- `request.user`: either Django's AnonymousUser or an authenticated user. -/
inductive Requester where
  | anon : Requester
  | auth : User → Requester
  deriving DecidableEq, Repr

/-- `user.is_authenticated`. -/
def Requester.is_authenticated : Requester → Bool
  | .anon => false
  | .auth _ => true

/-- `FavoriteRecipe.objects.filter(user=user, recipe__pk=pk).exists()`. -/
def favExists (db : DB) (uid rid : Nat) : Bool :=
  db.favorites.any (fun f => f.user == uid && f.recipe == rid)

/-- `ShoppingCart.objects.filter(user=user, recipe__pk=pk).exists()`. -/
def cartExists (db : DB) (uid rid : Nat) : Bool :=
  db.cart.any (fun c => c.user == uid && c.recipe == rid)

/-! ## fgapp/filters.py -/

/-- Does recipe `r` carry, via the RecipeTags join table, some tag whose slug
is among `slugs`?  This is `tags__slug__in=slugs` membership. -/
def hasAnyTagSlug (db : DB) (r : Recipe) (slugs : List String) : Bool :=
  db.recipeTags.any (fun rt =>
    rt.recipe == r.id && db.tags.any (fun t => t.id == rt.tag && slugs.contains t.slug))

/-- `RecipeFilterSet.tags`: a `ModelMultipleChoiceFilter` on `tags__slug`.
With no supplied values the queryset is untouched; with values the repeated
slugs are OR'd as a membership test against each recipe's tag set. -/
def RecipeFilterSet.filterTags (db : DB) (qs : List Recipe) (slugs : List String) :
    List Recipe :=
  if slugs.isEmpty then qs else qs.filter (fun r => hasAnyTagSlug db r slugs)

/-- `RecipeFilterSet.filter_is_favorited`: when the numeric value is truthy and
the caller is authenticated, keep the recipes with a FavoriteRecipe row for
the caller (`queryset.filter(favorites__user=self.request.user)`); otherwise
return the queryset unchanged. -/
def RecipeFilterSet.filter_is_favorited (db : DB) (req : Requester)
    (qs : List Recipe) (value : Nat) : List Recipe :=
  if value ≠ 0 ∧ req.is_authenticated then
    match req with
    | .auth u => qs.filter (fun r => favExists db u.id r.id)
    | .anon => qs
  else qs

/-- `RecipeFilterSet.filter_is_in_shopping_cart`: when the numeric value is
truthy and the caller is authenticated it filters by
`shopping_list__user=self.request.user`, but its other branch is a bare
`return`, producing `None` (here `none`) instead of the queryset. -/
def RecipeFilterSet.filter_is_in_shopping_cart (db : DB) (req : Requester)
    (qs : List Recipe) (value : Nat) : Option (List Recipe) :=
  if value ≠ 0 ∧ req.is_authenticated then
    match req with
    | .auth u => some (qs.filter (fun r => cartExists db u.id r.id))
    | .anon => some qs
  else none

/-- Lower-case a string character by character (the semantics of a
case-insensitive comparison in the ORM's `istartswith` lookup). -/
def lowerChars (s : String) : List Char :=
  s.data.map Char.toLower

/-- The ORM's `istartswith` lookup: `name` starts with `value`, ignoring case. -/
def istartswith (name value : String) : Bool :=
  (lowerChars value).isPrefixOf (lowerChars name)

/-- `IngredientSearchFilter`: a `CharFilter` on `name` with
`lookup_expr = istartswith`, applied to the ingredient table. -/
def IngredientSearchFilter.filterName (db : DB) (value : String) : List Ingredient :=
  db.ingredients.filter (fun i => istartswith i.name value)

/-! ## fgapp/views.py -/

/-- An HTTP response: status code plus the optional `errors` body text. -/
structure Response where
  status : Nat
  errors : Option String
  deriving DecidableEq, Repr

/-- A recipe row together with the two computed boolean flags that
`RecipeViewSet.get_queryset` annotates onto each recipe. -/
structure AnnotatedRecipe where
  recipe : Recipe
  is_favorited : Bool
  is_in_shopping_cart : Bool
  deriving DecidableEq, Repr

/-- The queryset built inside `RecipeViewSet.get_queryset`: all recipes, each
annotated with `is_favorited` / `is_in_shopping_cart` by an existence
sub-query against the caller's favorite/cart rows, or with constant `False`
values for an anonymous caller. -/
def recipeQuerysetBody (db : DB) (req : Requester) : List AnnotatedRecipe :=
  match req with
  | .auth u =>
      db.recipes.map (fun r =>
        ⟨r, favExists db u.id r.id, cartExists db u.id r.id⟩)
  | .anon =>
      db.recipes.map (fun r => ⟨r, false, false⟩)

/-- `RecipeViewSet.get_queryset`: builds the annotated queryset and then
executes a bare `return`, so the method's value is `None` (here `none`) and
the computed queryset is discarded. -/
def RecipeViewSet.get_queryset (db : DB) (req : Requester) :
    Option (List AnnotatedRecipe) :=
  let _queryset := recipeQuerysetBody db req
  none

/-- The write payload accepted by RecipePostSerializer: recipe fields, the
ingredient lines (ingredient id, amount), the tag ids, and a possible
client-supplied author id. -/
structure RecipePayload where
  author : Option Nat
  name : String
  text : String
  ingredients : List (Nat × Nat)
  tags : List Nat
  deriving DecidableEq, Repr

/-- Modelled from the spec: RecipePostSerializer validation
(fgapp/serializers.py is not shown).  A recipe must carry at least one
ingredient line, mirroring the data-model invariant "a recipe has at least
one ingredient line (enforced by requiring minimum inline entries at
creation)". -/
def payloadValid (p : RecipePayload) : Bool :=
  1 ≤ p.ingredients.length

/-- The next free recipe primary key. -/
def nextRecipeId (db : DB) : Nat :=
  (db.recipes.map Recipe.id).foldr max 0 + 1

/-- The next free RecipeIngredients primary key. -/
def nextLineId (db : DB) : Nat :=
  (db.recipeIngredients.map RecipeIngredients.id).foldr max 0 + 1

/-- `serializer.save(author=...)` on a create: the stored author is the
keyword override when one is passed, and only otherwise the payload's author
field; the ingredient lines and tag rows of the payload are written to the
join tables.  Returns the new store and the stored recipe. -/
def serializerSaveCreate (db : DB) (p : RecipePayload) (authorOverride : Option Nat)
    (now : Nat) : DB × Recipe :=
  let rid := nextRecipeId db
  let storedAuthor := match authorOverride with
    | some a => a
    | none => p.author.getD 0
  let recipe : Recipe := ⟨rid, storedAuthor, p.name, p.text, now⟩
  let lid := nextLineId db
  let lines := (p.ingredients.enum).map (fun x =>
    RecipeIngredients.mk (lid + x.1) rid x.2.1 x.2.2)
  let tagRows := p.tags.map (fun t => RecipeTags.mk 0 rid t)
  ({ db with
      recipes := db.recipes ++ [recipe]
      recipeIngredients := db.recipeIngredients ++ lines
      recipeTags := db.recipeTags ++ tagRows }, recipe)

/-- `serializer.save(author=...)` on an update of `instance`: the instance's
fields are replaced by the payload's, and the stored author is the keyword
override when one is passed. -/
def serializerSaveUpdate (db : DB) (instanceId : Nat) (p : RecipePayload)
    (authorOverride : Option Nat) : DB :=
  let storedAuthor := match authorOverride with
    | some a => a
    | none => p.author.getD 0
  { db with
      recipes := db.recipes.map (fun r =>
        if r.id = instanceId then
          { r with author := storedAuthor, name := p.name, text := p.text }
        else r) }

/-- `RecipeViewSet.perform_create`: `serializer.save(author=self.request.user)`. -/
def RecipeViewSet.perform_create (db : DB) (caller : User) (p : RecipePayload)
    (now : Nat) : DB × Recipe :=
  serializerSaveCreate db p (some caller.id) now

/-- `RecipeViewSet.create`: validate the payload (`is_valid(raise_exception=True)`),
then `perform_create`, answering 201 on success and 400 on a validation
failure. -/
def RecipeViewSet.create (db : DB) (caller : User) (p : RecipePayload)
    (now : Nat) : Response × DB :=
  if payloadValid p then
    let (db2, _) := RecipeViewSet.perform_create db caller p now
    (⟨201, none⟩, db2)
  else
    (⟨400, some "validation error"⟩, db)

/-- `RecipeViewSet.perform_update`: `serializer.save(author=self.request.user)`. -/
def RecipeViewSet.perform_update (db : DB) (caller : User) (instanceId : Nat)
    (p : RecipePayload) : DB :=
  serializerSaveUpdate db instanceId p (some caller.id)

/-- The 400 body of the shopping-cart delete, naming the recipe:
`f'Рецепт ({recipe.name}) уже отсутствует в списке покупок.'`. -/
def cartAbsentMsg (name : String) : String :=
  "Рецепт (" ++ name ++ ") уже отсутствует в списке покупок."

/-- The 400 body of the favorite delete, naming the recipe:
`f'Рецепт ({recipe.name}) уже отсутствует в избранном.'`. -/
def favoriteAbsentMsg (name : String) : String :=
  "Рецепт (" ++ name ++ ") уже отсутствует в избранном."

/-- The 400 body of the subscribe delete:
`f'Автор {author_for_unsubs} отсутствут в Ваших подписках.'`.
Modelled from the spec for the `str(User)` part (users/models.py is not
shown): the interpolated user renders as the username. -/
def subscribeAbsentMsg (username : String) : String :=
  "Автор " ++ username ++ " отсутствут в Ваших подписках."

/-- `ShoppingCartViewSet.delete`: look the recipe up by path id
(`get_object_or_404`, answering 404 when absent); look the (caller, recipe)
cart row up, answering 400 with the message naming the recipe when absent;
otherwise delete the row and answer 204. -/
def ShoppingCartViewSet.delete (db : DB) (caller : User) (recipe_id : Nat) :
    Response × DB :=
  match db.recipes.find? (fun r => r.id == recipe_id) with
  | none => (⟨404, none⟩, db)
  | some recipe =>
    match db.cart.find? (fun c => c.user == caller.id && c.recipe == recipe.id) with
    | none => (⟨400, some (cartAbsentMsg recipe.name)⟩, db)
    | some cart_item =>
        (⟨204, none⟩, { db with cart := db.cart.erase cart_item })

/-- `FavoriteRecipeViewSet.delete`: the same contract against the
FavoriteRecipe table, with the favorites-flavoured 400 message. -/
def FavoriteRecipeViewSet.delete (db : DB) (caller : User) (recipe_id : Nat) :
    Response × DB :=
  match db.recipes.find? (fun r => r.id == recipe_id) with
  | none => (⟨404, none⟩, db)
  | some recipe =>
    match db.favorites.find? (fun f => f.user == caller.id && f.recipe == recipe.id) with
    | none => (⟨400, some (favoriteAbsentMsg recipe.name)⟩, db)
    | some favorite =>
        (⟨204, none⟩, { db with favorites := db.favorites.erase favorite })

/-- `SubscribeViewSet.delete`: the same contract against the Subscribe table;
the target is a user looked up by path id and the 400 message names the
author. -/
def SubscribeViewSet.delete (db : DB) (caller : User) (user_id : Nat) :
    Response × DB :=
  match db.users.find? (fun u => u.id == user_id) with
  | none => (⟨404, none⟩, db)
  | some author_for_unsubs =>
    match db.subscribes.find? (fun s =>
        s.user == caller.id && s.subscribing == author_for_unsubs.id) with
    | none => (⟨400, some (subscribeAbsentMsg author_for_unsubs.username)⟩, db)
    | some subscribe =>
        (⟨204, none⟩, { db with subscribes := db.subscribes.erase subscribe })

/-- `SubscriptionsViewSet.get_queryset`: the caller's Subscribe rows
(`self.request.user.subscriber.all()`), their `subscribing` ids, and the
users whose id is among those ids. -/
def SubscriptionsViewSet.get_queryset (db : DB) (caller : User) : List User :=
  let subs_query := db.subscribes.filter (fun s => s.user == caller.id)
  let subs_id_list := subs_query.map Subscribe.subscribing
  db.users.filter (fun u => subs_id_list.contains u.id)

/-! ## fgapp/admin.py -/

/-- `IngredientsInLine.min_num` on the Recipe admin's RecipeIngredients
inline. -/
def IngredientsInLine.min_num : Nat := 1

/-- Recipe creation through the admin form with its inline RecipeIngredients
entries: the inline formset rejects a submission with fewer than `min_num`
entries (framework semantics of `min_num`); on success the recipe and its
ingredient lines are stored. -/
def adminCreateRecipe (db : DB) (author : Nat) (name text : String)
    (lines : List (Nat × Nat)) (now : Nat) : Option DB :=
  if lines.length < IngredientsInLine.min_num then none
  else
    let rid := nextRecipeId db
    some { db with
      recipes := db.recipes ++ [⟨rid, author, name, text, now⟩],
      recipeIngredients := db.recipeIngredients ++
        (lines.enum.map (fun x =>
          RecipeIngredients.mk (nextLineId db + x.1) rid x.2.1 x.2.2)) }

/-- Recipe `r` carries at least one RecipeIngredients line. -/
def hasIngredientLine (db : DB) (r : Recipe) : Bool :=
  db.recipeIngredients.any (fun line => line.recipe == r.id)

/-- The data-model invariant: every stored recipe has at least one
ingredient line. -/
def ingredientInvariant (db : DB) : Prop :=
  ∀ r ∈ db.recipes, hasIngredientLine db r = true

/-- Well-formedness of the three membership tables: no duplicate rows, and
at most one row per (user, target) pair — the pair uniqueness the spec
implies by the toggle semantics. -/
def membershipWF (db : DB) : Prop :=
  (db.cart.Nodup ∧
    ∀ c₁ ∈ db.cart, ∀ c₂ ∈ db.cart,
      c₁.user = c₂.user → c₁.recipe = c₂.recipe → c₁ = c₂) ∧
  (db.favorites.Nodup ∧
    ∀ f₁ ∈ db.favorites, ∀ f₂ ∈ db.favorites,
      f₁.user = f₂.user → f₁.recipe = f₂.recipe → f₁ = f₂) ∧
  (db.subscribes.Nodup ∧
    ∀ s₁ ∈ db.subscribes, ∀ s₂ ∈ db.subscribes,
      s₁.user = s₂.user → s₁.subscribing = s₂.subscribing → s₁ = s₂)

/-! ## Concrete example data -/

/-- Example user. -/
def alice : User := ⟨1, "alice"⟩

/-- Example user. -/
def bob : User := ⟨2, "bob"⟩

/-- Example recipe authored by alice. -/
def pancakes : Recipe := ⟨1, 1, "Pancakes", "flour and milk", 0⟩

/-- Example recipe authored by bob. -/
def omelette : Recipe := ⟨2, 2, "Omelette", "eggs", 1⟩

/-- Example ingredient whose name starts with "mil". -/
def milk : Ingredient := ⟨1, "Milk", "ml"⟩

/-- Example ingredient whose upper-case name starts with "mil" ignoring case. -/
def milkshake : Ingredient := ⟨2, "MILKSHAKE", "ml"⟩

/-- Example ingredient that contains but does not start with "mil". -/
def almilk : Ingredient := ⟨3, "Almilk", "g"⟩

/-- A small populated store: alice has favorited `pancakes`, has `omelette`
in her cart, and subscribes to bob. -/
def exDB : DB :=
  { users := [alice, bob]
    recipes := [pancakes, omelette]
    tags := [⟨1, "Breakfast", "breakfast"⟩, ⟨2, "Lunch", "lunch"⟩]
    ingredients := [milk, milkshake, almilk]
    recipeTags := [⟨1, 1, 1⟩, ⟨2, 2, 2⟩]
    recipeIngredients := [⟨1, 1, 1, 100⟩, ⟨2, 2, 3, 50⟩]
    favorites := [⟨1, 1, 1⟩]
    cart := [⟨1, 1, 2⟩]
    subscribes := [⟨1, 1, 2⟩] }

/-! ## Helper lemmas -/

/-- `favExists` is the existence of a FavoriteRecipe row. -/
theorem favExists_iff (db : DB) (uid rid : Nat) :
    favExists db uid rid = true ↔
      ∃ f ∈ db.favorites, f.user = uid ∧ f.recipe = rid := by
  simp [favExists, List.any_eq_true, Bool.and_eq_true, beq_iff_eq]

/-- `cartExists` is the existence of a ShoppingCart row. -/
theorem cartExists_iff (db : DB) (uid rid : Nat) :
    cartExists db uid rid = true ↔
      ∃ c ∈ db.cart, c.user = uid ∧ c.recipe = rid := by
  simp [cartExists, List.any_eq_true, Bool.and_eq_true, beq_iff_eq]

/-- `find?` returns the distinguished element when it is the only member
satisfying the predicate. -/
theorem find?_eq_some_of_unique {α : Type} (l : List α) (p : α → Bool) (a : α)
    (ha : a ∈ l) (hpa : p a = true) (huniq : ∀ b ∈ l, p b = true → b = a) :
    l.find? p = some a := by
  induction l with
  | nil => cases ha
  | cons x xs ih =>
    by_cases hx : p x = true
    · rw [List.find?_cons_of_pos xs hx, huniq x (List.mem_cons_self x xs) hx]
    · rcases List.mem_cons.mp ha with h | h
      · subst h
        exact absurd hpa hx
      · rw [List.find?_cons_of_neg xs hx]
        exact ih h (fun b hb hpb => huniq b (List.mem_cons_of_mem x hb) hpb)

/-- Erasing from a duplicate-free table the unique row satisfying a
predicate: exactly one row disappears, nothing is added, and no satisfying
row remains. -/
theorem erase_unique_spec {α : Type} [DecidableEq α] (l : List α) (p : α → Bool)
    (a : α) (hnd : l.Nodup) (ha : a ∈ l)
    (huniq : ∀ b ∈ l, p b = true → b = a) :
    (l.erase a).length + 1 = l.length ∧
    (∀ x ∈ l.erase a, x ∈ l) ∧
    (∀ x ∈ l.erase a, p x = false) := by
  refine ⟨?_, fun x hx => List.erase_subset a l hx, fun x hx => ?_⟩
  · rw [List.length_erase_of_mem ha]
    have := List.length_pos_of_mem ha
    omega
  · obtain ⟨hne, hmem⟩ := (List.Nodup.mem_erase_iff hnd).mp hx
    by_cases hp : p x = true
    · exact absurd (huniq x hmem hp) hne
    · exact Bool.eq_false_iff.mpr hp

/-! ## Claims -/

/-- C1: the spec claims `RecipeViewSet.get_queryset` returns all recipes
annotated with `is_favorited` / `is_in_shopping_cart` flags matching row
existence in the favorite/cart tables (constant false for anonymous
callers).  The method body does build exactly that queryset, but the method
ends in a bare `return`: its value is `none` for every store and requester,
and the annotated queryset — here evaluated on a concrete store where it is
correct and nonempty — is discarded. -/
theorem C1_get_queryset_returns_none :
    (∀ (db : DB) (req : Requester), RecipeViewSet.get_queryset db req = none) ∧
    recipeQuerysetBody exDB (.auth alice) =
      [⟨pancakes, true, false⟩, ⟨omelette, false, true⟩] ∧
    recipeQuerysetBody exDB .anon =
      [⟨pancakes, false, false⟩, ⟨omelette, false, false⟩] :=
  ⟨fun _ _ => rfl, by decide, by decide⟩

/-- C2: the spec claims the shopping-cart filter mirrors the favorites
filter: with value 1 and an authenticated caller it keeps exactly the
caller's cart recipes, and in every other case it returns the queryset Q
unchanged.  The first half holds, but on the no-op path the method is a bare
`return`: it produces `None` instead of Q, while the favorites filter does
return Q there. -/
theorem C2_cart_filter_nonop_path_returns_none :
    (∀ (db : DB) (u : User) (qs : List Recipe) (r : Recipe),
      ∃ res, RecipeFilterSet.filter_is_in_shopping_cart db (.auth u) qs 1 = some res ∧
        (r ∈ res ↔ r ∈ qs ∧ ∃ c ∈ db.cart, c.user = u.id ∧ c.recipe = r.id)) ∧
    (∀ (db : DB) (qs : List Recipe) (v : Nat),
      RecipeFilterSet.filter_is_in_shopping_cart db .anon qs v = none) ∧
    (∀ (db : DB) (u : User) (qs : List Recipe),
      RecipeFilterSet.filter_is_in_shopping_cart db (.auth u) qs 0 = none) ∧
    (∀ (db : DB) (qs : List Recipe) (v : Nat),
      RecipeFilterSet.filter_is_favorited db .anon qs v = qs) ∧
    RecipeFilterSet.filter_is_in_shopping_cart exDB .anon [pancakes] 1 = none := by
  refine ⟨?_, ?_, ?_, ?_, by decide⟩
  · intro db u qs r
    refine ⟨qs.filter (fun r => cartExists db u.id r.id), ?_, ?_⟩
    · simp [RecipeFilterSet.filter_is_in_shopping_cart, Requester.is_authenticated]
    · rw [List.mem_filter, cartExists_iff]
  · intro db qs v
    simp [RecipeFilterSet.filter_is_in_shopping_cart, Requester.is_authenticated]
  · intro db u qs
    simp [RecipeFilterSet.filter_is_in_shopping_cart, Requester.is_authenticated]
  · intro db qs v
    simp [RecipeFilterSet.filter_is_favorited, Requester.is_authenticated]

/-- C6: the ingredient name filter keeps exactly the ingredients whose name
starts with the query value ignoring case: membership in the filtered list is
equivalent to membership in the table together with the lower-cased name
having the lower-cased query as a prefix; on the example table, "mil"
returns Milk and MILKSHAKE and excludes Almilk. -/
theorem C6_ingredient_name_prefix_filter :
    (∀ (db : DB) (s : String) (i : Ingredient),
      i ∈ IngredientSearchFilter.filterName db s ↔
        i ∈ db.ingredients ∧ ∃ rest, lowerChars i.name = lowerChars s ++ rest) ∧
    IngredientSearchFilter.filterName exDB "mil" = [milk, milkshake] := by
  constructor
  · intro db s i
    rw [IngredientSearchFilter.filterName, List.mem_filter, istartswith,
      List.isPrefixOf_iff_prefix]
    constructor
    · rintro ⟨hm, t, ht⟩
      exact ⟨hm, t, ht.symm⟩
    · rintro ⟨hm, t, ht⟩
      exact ⟨hm, t, ht.symm⟩
  · decide

/-- C8: the subscriptions list for a caller contains exactly the users the
caller has subscribed to: a user is in the queryset precisely when it is a
stored user and some Subscribe row has the caller as `user` and that user as
`subscribing`. -/
theorem C8_subscriptions_list_exact (db : DB) (caller u : User) :
    u ∈ SubscriptionsViewSet.get_queryset db caller ↔
      u ∈ db.users ∧ ∃ s ∈ db.subscribes, s.user = caller.id ∧ s.subscribing = u.id := by
  simp only [SubscriptionsViewSet.get_queryset, List.mem_filter, List.contains,
    List.elem_eq_mem, decide_eq_true_eq, List.mem_map, beq_iff_eq]
  constructor
  · rintro ⟨hu, s, ⟨hs, hsu⟩, hsub⟩
    exact ⟨hu, s, hs, hsu, hsub⟩
  · rintro ⟨hu, s, hs, hsu, hsub⟩
    exact ⟨hu, s, ⟨hs, hsu⟩, hsub⟩

/-- C5: the favorites filter with value 1 for an authenticated caller keeps
exactly the recipes of the queryset that have a FavoriteRecipe row for the
caller; with a falsy value, or for an anonymous caller, it is a no-op that
returns the queryset unchanged. -/
theorem C5_favorited_filter_exact (db : DB) (u : User) (qs : List Recipe) (v : Nat) :
    (∀ r, r ∈ RecipeFilterSet.filter_is_favorited db (.auth u) qs 1 ↔
        r ∈ qs ∧ ∃ f ∈ db.favorites, f.user = u.id ∧ f.recipe = r.id) ∧
    RecipeFilterSet.filter_is_favorited db (.auth u) qs 0 = qs ∧
    RecipeFilterSet.filter_is_favorited db .anon qs v = qs := by
  refine ⟨?_, ?_, ?_⟩
  · intro r
    rw [show RecipeFilterSet.filter_is_favorited db (.auth u) qs 1 =
        qs.filter (fun r => favExists db u.id r.id) by
      simp [RecipeFilterSet.filter_is_favorited, Requester.is_authenticated]]
    rw [List.mem_filter, favExists_iff]
  · simp [RecipeFilterSet.filter_is_favorited]
  · simp [RecipeFilterSet.filter_is_favorited, Requester.is_authenticated]

/-- An update payload that tries to smuggle in author id 99. -/
def pay0 : RecipePayload := ⟨some 99, "Updated", "new text", [(1, 10)], [1]⟩

/-- C4: a recipe stored by a create or an update carries the authenticated
caller as author, whatever author id the payload supplies: the recipe
returned by `perform_create` has the caller as author and is stored, and
after `perform_update` of an instance id every stored recipe with that id
has the caller as author. -/
theorem C4_author_forced_to_caller (db : DB) (caller : User) (p : RecipePayload)
    (now iid : Nat) :
    (RecipeViewSet.perform_create db caller p now).2.author = caller.id ∧
    (RecipeViewSet.perform_create db caller p now).2 ∈
      (RecipeViewSet.perform_create db caller p now).1.recipes ∧
    (∀ r ∈ (RecipeViewSet.perform_update db caller iid p).recipes,
      r.id = iid → r.author = caller.id) := by
  refine ⟨rfl, ?_, ?_⟩
  · simp [RecipeViewSet.perform_create, serializerSaveCreate]
  · intro r hr hid
    simp only [RecipeViewSet.perform_update, serializerSaveUpdate, List.mem_map] at hr
    obtain ⟨r₀, _, hmap⟩ := hr
    by_cases h0 : r₀.id = iid
    · rw [if_pos h0] at hmap
      rw [← hmap]
    · rw [if_neg h0] at hmap
      rw [← hmap] at hid
      exact absurd hid h0

/-- C4 witness: updating recipe 1 of the example store as bob, with a
payload naming author 99, stores bob as the author. -/
theorem C4_author_forced_to_caller_witness :
    (Recipe.mk 1 bob.id pay0.name pay0.text 0).author = bob.id :=
  (C4_author_forced_to_caller exDB bob pay0 5 1).2.2
    (Recipe.mk 1 bob.id pay0.name pay0.text 0) (by decide) (by decide)

/-- C7: with a non-empty list of tag slugs, the tags filter keeps exactly
the recipes of the queryset carrying, via the RecipeTags join table, at
least one tag whose slug is among the supplied slugs. -/
theorem C7_tags_filter_or_membership (db : DB) (qs : List Recipe)
    (slugs : List String) (r : Recipe) (h : slugs ≠ []) :
    r ∈ RecipeFilterSet.filterTags db qs slugs ↔
      r ∈ qs ∧ ∃ rt ∈ db.recipeTags, rt.recipe = r.id ∧
        ∃ t ∈ db.tags, t.id = rt.tag ∧ t.slug ∈ slugs := by
  rw [RecipeFilterSet.filterTags, if_neg (by simpa using h), List.mem_filter]
  simp [hasAnyTagSlug, List.any_eq_true, Bool.and_eq_true, beq_iff_eq,
    List.contains, List.elem_eq_mem, decide_eq_true_eq]

/-- C7 witness: on the example store, filtering by the slugs breakfast and
lunch keeps the pancakes recipe, which carries the breakfast tag. -/
theorem C7_tags_filter_or_membership_witness :
    pancakes ∈ RecipeFilterSet.filterTags exDB exDB.recipes ["breakfast", "lunch"] :=
  (C7_tags_filter_or_membership exDB exDB.recipes ["breakfast", "lunch"] pancakes
    (by decide)).mpr (by decide)

/-- C3: the membership delete contract, for all three endpoints on a
well-formed store.  When no target with the path id exists the response is
404 and the store is untouched; when the target exists but no (caller,
target) membership row does, the response is 400 with the structured body
naming the target and the store is untouched; when the row exists, the
response is 204, exactly that row is removed from its table and nothing
else changes.  The final conjunct shows each 400 body literally contains
the target's name. -/
theorem C3_membership_delete_contract (db : DB) (caller : User) (rid cid uid : Nat)
    (hwf : membershipWF db)
    (hrid : ∀ r₁ ∈ db.recipes, ∀ r₂ ∈ db.recipes, r₁.id = r₂.id → r₁ = r₂)
    (huid : ∀ u₁ ∈ db.users, ∀ u₂ ∈ db.users, u₁.id = u₂.id → u₁ = u₂) :
    (((¬ ∃ r ∈ db.recipes, r.id = rid) →
        FavoriteRecipeViewSet.delete db caller rid = (⟨404, none⟩, db)) ∧
      ∀ recipe ∈ db.recipes, recipe.id = rid →
        ((¬ ∃ f ∈ db.favorites, f.user = caller.id ∧ f.recipe = recipe.id) →
          FavoriteRecipeViewSet.delete db caller rid =
            (⟨400, some (favoriteAbsentMsg recipe.name)⟩, db)) ∧
        (∀ fav ∈ db.favorites, fav.user = caller.id → fav.recipe = recipe.id →
          FavoriteRecipeViewSet.delete db caller rid =
            (⟨204, none⟩, { db with favorites := db.favorites.erase fav }) ∧
          (db.favorites.erase fav).length + 1 = db.favorites.length ∧
          (∀ x ∈ db.favorites.erase fav, x ∈ db.favorites) ∧
          ¬ ∃ x ∈ db.favorites.erase fav,
              x.user = caller.id ∧ x.recipe = recipe.id)) ∧
    (((¬ ∃ r ∈ db.recipes, r.id = cid) →
        ShoppingCartViewSet.delete db caller cid = (⟨404, none⟩, db)) ∧
      ∀ recipe ∈ db.recipes, recipe.id = cid →
        ((¬ ∃ c ∈ db.cart, c.user = caller.id ∧ c.recipe = recipe.id) →
          ShoppingCartViewSet.delete db caller cid =
            (⟨400, some (cartAbsentMsg recipe.name)⟩, db)) ∧
        (∀ item ∈ db.cart, item.user = caller.id → item.recipe = recipe.id →
          ShoppingCartViewSet.delete db caller cid =
            (⟨204, none⟩, { db with cart := db.cart.erase item }) ∧
          (db.cart.erase item).length + 1 = db.cart.length ∧
          (∀ x ∈ db.cart.erase item, x ∈ db.cart) ∧
          ¬ ∃ x ∈ db.cart.erase item,
              x.user = caller.id ∧ x.recipe = recipe.id)) ∧
    (((¬ ∃ u ∈ db.users, u.id = uid) →
        SubscribeViewSet.delete db caller uid = (⟨404, none⟩, db)) ∧
      ∀ author ∈ db.users, author.id = uid →
        ((¬ ∃ s ∈ db.subscribes, s.user = caller.id ∧ s.subscribing = author.id) →
          SubscribeViewSet.delete db caller uid =
            (⟨400, some (subscribeAbsentMsg author.username)⟩, db)) ∧
        (∀ sub ∈ db.subscribes, sub.user = caller.id → sub.subscribing = author.id →
          SubscribeViewSet.delete db caller uid =
            (⟨204, none⟩, { db with subscribes := db.subscribes.erase sub }) ∧
          (db.subscribes.erase sub).length + 1 = db.subscribes.length ∧
          (∀ x ∈ db.subscribes.erase sub, x ∈ db.subscribes) ∧
          ¬ ∃ x ∈ db.subscribes.erase sub,
              x.user = caller.id ∧ x.subscribing = author.id)) ∧
    (∀ s : String,
      (∃ pre suf, (favoriteAbsentMsg s).data = pre ++ s.data ++ suf) ∧
      (∃ pre suf, (cartAbsentMsg s).data = pre ++ s.data ++ suf) ∧
      (∃ pre suf, (subscribeAbsentMsg s).data = pre ++ s.data ++ suf)) := by
  obtain ⟨⟨hcartND, hcartU⟩, ⟨hfavND, hfavU⟩, ⟨hsubND, hsubU⟩⟩ := hwf
  refine ⟨⟨?_, ?_⟩, ⟨?_, ?_⟩, ⟨?_, ?_⟩, ?_⟩
  · intro h
    have hfind : db.recipes.find? (fun r => r.id == rid) = none :=
      List.find?_eq_none.mpr (fun r hr hp => h ⟨r, hr, by simpa using hp⟩)
    simp [FavoriteRecipeViewSet.delete, hfind]
  · intro recipe hrec hid
    have hfound : db.recipes.find? (fun r => r.id == rid) = some recipe :=
      find?_eq_some_of_unique _ _ recipe hrec (by simpa using hid)
        (fun b hb hpb => hrid b hb recipe hrec
          (by simp only [beq_iff_eq] at hpb; rw [hpb, hid]))
    refine ⟨?_, ?_⟩
    · intro habs
      have hnone : db.favorites.find?
          (fun f => f.user == caller.id && f.recipe == recipe.id) = none :=
        List.find?_eq_none.mpr (fun f hf hp => by
          rw [Bool.and_eq_true, beq_iff_eq, beq_iff_eq] at hp
          exact habs ⟨f, hf, hp⟩)
      simp [FavoriteRecipeViewSet.delete, hfound, hnone]
    · intro fav hfav hu hr
      have huq : ∀ b ∈ db.favorites,
          (b.user == caller.id && b.recipe == recipe.id) = true → b = fav := by
        intro b hb hpb
        rw [Bool.and_eq_true, beq_iff_eq, beq_iff_eq] at hpb
        exact hfavU b hb fav hfav (hpb.1.trans hu.symm) (hpb.2.trans hr.symm)
      have hsome : db.favorites.find?
          (fun f => f.user == caller.id && f.recipe == recipe.id) = some fav :=
        find?_eq_some_of_unique _ _ fav hfav (by simp [hu, hr]) huq
      obtain ⟨hlen, hsub, hnop⟩ := erase_unique_spec db.favorites _ fav hfavND hfav huq
      refine ⟨by simp [FavoriteRecipeViewSet.delete, hfound, hsome], hlen, hsub, ?_⟩
      rintro ⟨x, hx, hxu, hxr⟩
      have hfalse := hnop x hx
      simp [hxu, hxr] at hfalse
  · intro h
    have hfind : db.recipes.find? (fun r => r.id == cid) = none :=
      List.find?_eq_none.mpr (fun r hr hp => h ⟨r, hr, by simpa using hp⟩)
    simp [ShoppingCartViewSet.delete, hfind]
  · intro recipe hrec hid
    have hfound : db.recipes.find? (fun r => r.id == cid) = some recipe :=
      find?_eq_some_of_unique _ _ recipe hrec (by simpa using hid)
        (fun b hb hpb => hrid b hb recipe hrec
          (by simp only [beq_iff_eq] at hpb; rw [hpb, hid]))
    refine ⟨?_, ?_⟩
    · intro habs
      have hnone : db.cart.find?
          (fun c => c.user == caller.id && c.recipe == recipe.id) = none :=
        List.find?_eq_none.mpr (fun c hc hp => by
          rw [Bool.and_eq_true, beq_iff_eq, beq_iff_eq] at hp
          exact habs ⟨c, hc, hp⟩)
      simp [ShoppingCartViewSet.delete, hfound, hnone]
    · intro item hitem hu hr
      have huq : ∀ b ∈ db.cart,
          (b.user == caller.id && b.recipe == recipe.id) = true → b = item := by
        intro b hb hpb
        rw [Bool.and_eq_true, beq_iff_eq, beq_iff_eq] at hpb
        exact hcartU b hb item hitem (hpb.1.trans hu.symm) (hpb.2.trans hr.symm)
      have hsome : db.cart.find?
          (fun c => c.user == caller.id && c.recipe == recipe.id) = some item :=
        find?_eq_some_of_unique _ _ item hitem (by simp [hu, hr]) huq
      obtain ⟨hlen, hsub, hnop⟩ := erase_unique_spec db.cart _ item hcartND hitem huq
      refine ⟨by simp [ShoppingCartViewSet.delete, hfound, hsome], hlen, hsub, ?_⟩
      rintro ⟨x, hx, hxu, hxr⟩
      have hfalse := hnop x hx
      simp [hxu, hxr] at hfalse
  · intro h
    have hfind : db.users.find? (fun u => u.id == uid) = none :=
      List.find?_eq_none.mpr (fun u hu hp => h ⟨u, hu, by simpa using hp⟩)
    simp [SubscribeViewSet.delete, hfind]
  · intro author hauth hid
    have hfound : db.users.find? (fun u => u.id == uid) = some author :=
      find?_eq_some_of_unique _ _ author hauth (by simpa using hid)
        (fun b hb hpb => huid b hb author hauth
          (by simp only [beq_iff_eq] at hpb; rw [hpb, hid]))
    refine ⟨?_, ?_⟩
    · intro habs
      have hnone : db.subscribes.find?
          (fun s => s.user == caller.id && s.subscribing == author.id) = none :=
        List.find?_eq_none.mpr (fun s hs hp => by
          rw [Bool.and_eq_true, beq_iff_eq, beq_iff_eq] at hp
          exact habs ⟨s, hs, hp⟩)
      simp [SubscribeViewSet.delete, hfound, hnone]
    · intro sub hsubm hu hr
      have huq : ∀ b ∈ db.subscribes,
          (b.user == caller.id && b.subscribing == author.id) = true → b = sub := by
        intro b hb hpb
        rw [Bool.and_eq_true, beq_iff_eq, beq_iff_eq] at hpb
        exact hsubU b hb sub hsubm (hpb.1.trans hu.symm) (hpb.2.trans hr.symm)
      have hsome : db.subscribes.find?
          (fun s => s.user == caller.id && s.subscribing == author.id) = some sub :=
        find?_eq_some_of_unique _ _ sub hsubm (by simp [hu, hr]) huq
      obtain ⟨hlen, hsub, hnop⟩ :=
        erase_unique_spec db.subscribes _ sub hsubND hsubm huq
      refine ⟨by simp [SubscribeViewSet.delete, hfound, hsome], hlen, hsub, ?_⟩
      rintro ⟨x, hx, hxu, hxr⟩
      have hfalse := hnop x hx
      simp [hxu, hxr] at hfalse
  · intro s
    refine ⟨⟨"Рецепт (".data, ") уже отсутствует в избранном.".data, ?_⟩,
      ⟨"Рецепт (".data, ") уже отсутствует в списке покупок.".data, ?_⟩,
      ⟨"Автор ".data, " отсутствут в Ваших подписках.".data, ?_⟩⟩
    · simp [favoriteAbsentMsg]
    · simp [cartAbsentMsg]
    · simp [subscribeAbsentMsg]

/-- C3 witness: on the example store, alice deleting her stored favorite of
recipe 1 gets 204; deleting recipe 1 from her cart, where it is absent, gets
the 400 with the message naming Pancakes; unsubscribing from the nonexistent
user 99 gets 404. -/
theorem C3_membership_delete_contract_witness :
    (FavoriteRecipeViewSet.delete exDB alice 1).1 = ⟨204, none⟩ ∧
    ShoppingCartViewSet.delete exDB alice 1 =
      (⟨400, some (cartAbsentMsg pancakes.name)⟩, exDB) ∧
    SubscribeViewSet.delete exDB alice 99 = (⟨404, none⟩, exDB) := by
  have h := C3_membership_delete_contract exDB alice 1 1 99
    (by unfold membershipWF; decide) (by decide) (by decide)
  refine ⟨?_, (h.2.1.2 pancakes (by decide) (by decide)).1 (by decide),
    h.2.2.1.1 (by decide)⟩
  have h204 := ((h.1.2 pancakes (by decide) (by decide)).2 ⟨1, 1, 1⟩ (by decide)
    (by decide) (by decide)).1
  exact congrArg Prod.fst h204

/-- C10: a membership delete that answers the 400 membership-absent conflict
leaves the whole store unchanged, for each of the three endpoints. -/
theorem C10_conflict_path_leaves_state_unchanged (db : DB) (caller : User) (tid : Nat) :
    ((FavoriteRecipeViewSet.delete db caller tid).1.status = 400 →
      (FavoriteRecipeViewSet.delete db caller tid).2 = db) ∧
    ((ShoppingCartViewSet.delete db caller tid).1.status = 400 →
      (ShoppingCartViewSet.delete db caller tid).2 = db) ∧
    ((SubscribeViewSet.delete db caller tid).1.status = 400 →
      (SubscribeViewSet.delete db caller tid).2 = db) := by
  refine ⟨?_, ?_, ?_⟩
  · intro h
    unfold FavoriteRecipeViewSet.delete at h ⊢
    cases hr : db.recipes.find? (fun r => r.id == tid) with
    | none => simp [hr]
    | some recipe =>
      cases hf : db.favorites.find?
          (fun f => f.user == caller.id && f.recipe == recipe.id) with
      | none => simp [hr, hf]
      | some fav => simp [hr, hf] at h
  · intro h
    unfold ShoppingCartViewSet.delete at h ⊢
    cases hr : db.recipes.find? (fun r => r.id == tid) with
    | none => simp [hr]
    | some recipe =>
      cases hc : db.cart.find?
          (fun c => c.user == caller.id && c.recipe == recipe.id) with
      | none => simp [hr, hc]
      | some item => simp [hr, hc] at h
  · intro h
    unfold SubscribeViewSet.delete at h ⊢
    cases hu : db.users.find? (fun u => u.id == tid) with
    | none => simp [hu]
    | some author =>
      cases hs : db.subscribes.find?
          (fun s => s.user == caller.id && s.subscribing == author.id) with
      | none => simp [hu, hs]
      | some sub => simp [hu, hs] at h

/-- C10 witness: on the example store, bob's three failing deletes (favorite
of recipe 1, cart entry of recipe 1, subscription to user 1 — none of which
he holds) all answer 400 and leave the store exactly as it was. -/
theorem C10_conflict_path_leaves_state_unchanged_witness :
    (FavoriteRecipeViewSet.delete exDB bob 1).2 = exDB ∧
    (ShoppingCartViewSet.delete exDB bob 1).2 = exDB ∧
    (SubscribeViewSet.delete exDB bob 1).2 = exDB := by
  have h := C10_conflict_path_leaves_state_unchanged exDB bob 1
  exact ⟨h.1 (by decide), h.2.1 (by decide), h.2.2 (by decide)⟩

/-- Appending one recipe together with ingredient lines that include at
least one line for it preserves the at-least-one-ingredient-line
invariant. -/
theorem ingredientInvariant_insert (db db2 : DB) (r : Recipe)
    (newLines : List RecipeIngredients)
    (hrec : db2.recipes = db.recipes ++ [r])
    (hlines : db2.recipeIngredients = db.recipeIngredients ++ newLines)
    (hinv : ingredientInvariant db)
    (hnew : ∃ x ∈ newLines, x.recipe = r.id) :
    ingredientInvariant db2 := by
  intro q hq
  rw [hrec, List.mem_append] at hq
  unfold hasIngredientLine
  rw [hlines, List.any_append, Bool.or_eq_true]
  rcases hq with hq | hq
  · exact Or.inl (hinv q hq)
  · obtain rfl := List.mem_singleton.mp hq
    obtain ⟨x, hx, hxr⟩ := hnew
    exact Or.inr (List.any_eq_true.mpr ⟨x, hx, by simp [hxr]⟩)

/-- C9: recipe creation requires at least one ingredient line and preserves
the invariant that every stored recipe has one.  An API create with an empty
ingredients list is rejected with a 400 and changes nothing; whatever the
payload, the post-create store satisfies the invariant when the pre-create
store did; an admin create with fewer inline entries than `min_num = 1` is
rejected; and any store an admin create produces satisfies the invariant
when the input store did. -/
theorem C9_ingredient_line_invariant (db : DB) (caller : User) (p : RecipePayload)
    (author now : Nat) (name text : String) (lines : List (Nat × Nat)) (db2 : DB)
    (hinv : ingredientInvariant db) :
    (p.ingredients = [] →
      RecipeViewSet.create db caller p now = (⟨400, some "validation error"⟩, db)) ∧
    ingredientInvariant (RecipeViewSet.create db caller p now).2 ∧
    (lines = [] → adminCreateRecipe db author name text lines now = none) ∧
    (adminCreateRecipe db author name text lines now = some db2 →
      ingredientInvariant db2) := by
  refine ⟨?_, ?_, ?_, ?_⟩
  · intro hnil
    have hv : payloadValid p = false := by simp [payloadValid, hnil]
    simp [RecipeViewSet.create, hv]
  · by_cases hval : payloadValid p = true
    · have hne : p.ingredients ≠ [] := by
        intro hnil
        rw [payloadValid, hnil] at hval
        simp at hval
      have hstep : (RecipeViewSet.create db caller p now).2 =
          { db with
              recipes := db.recipes ++
                [⟨nextRecipeId db, caller.id, p.name, p.text, now⟩],
              recipeIngredients := db.recipeIngredients ++
                ((p.ingredients.enum).map (fun x =>
                  RecipeIngredients.mk (nextLineId db + x.1) (nextRecipeId db)
                    x.2.1 x.2.2)),
              recipeTags := db.recipeTags ++
                p.tags.map (fun t => RecipeTags.mk 0 (nextRecipeId db) t) } := by
        simp [RecipeViewSet.create, hval, RecipeViewSet.perform_create,
          serializerSaveCreate]
      rw [hstep]
      refine ingredientInvariant_insert db _
        (⟨nextRecipeId db, caller.id, p.name, p.text, now⟩)
        ((p.ingredients.enum).map (fun x =>
          RecipeIngredients.mk (nextLineId db + x.1) (nextRecipeId db) x.2.1 x.2.2))
        rfl rfl hinv ?_
      have hall : ∀ x ∈ (p.ingredients.enum).map (fun x =>
          RecipeIngredients.mk (nextLineId db + x.1) (nextRecipeId db) x.2.1 x.2.2),
          x.recipe = nextRecipeId db := by
        intro x hx
        obtain ⟨y, _, rfl⟩ := List.mem_map.mp hx
        rfl
      have hnil2 : ((p.ingredients.enum).map (fun x =>
          RecipeIngredients.mk (nextLineId db + x.1) (nextRecipeId db) x.2.1 x.2.2)) ≠ [] := by
        intro h0
        have hlen := congrArg List.length h0
        simp [List.length_map, List.enum_length] at hlen
        exact hne hlen
      obtain ⟨x, hx⟩ := List.exists_mem_of_ne_nil _ hnil2
      exact ⟨x, hx, hall x hx⟩
    · have hv : payloadValid p = false := Bool.eq_false_iff.mpr hval
      have hstep : (RecipeViewSet.create db caller p now).2 = db := by
        simp [RecipeViewSet.create, hv]
      rw [hstep]
      exact hinv
  · intro hnil
    simp [adminCreateRecipe, hnil, IngredientsInLine.min_num]
  · intro hsome
    by_cases h0 : lines.length < IngredientsInLine.min_num
    · simp [adminCreateRecipe, h0] at hsome
    · rw [adminCreateRecipe, if_neg h0] at hsome
      obtain rfl := Option.some_inj.mp hsome
      refine ingredientInvariant_insert db _
        (⟨nextRecipeId db, author, name, text, now⟩)
        ((lines.enum).map (fun x =>
          RecipeIngredients.mk (nextLineId db + x.1) (nextRecipeId db) x.2.1 x.2.2))
        rfl rfl hinv ?_
      have hne : lines ≠ [] := by
        intro hnil
        rw [hnil] at h0
        exact h0 (by simp [IngredientsInLine.min_num])
      have hnil2 : ((lines.enum).map (fun x =>
          RecipeIngredients.mk (nextLineId db + x.1) (nextRecipeId db) x.2.1 x.2.2)) ≠ [] := by
        intro hzero
        have hlen := congrArg List.length hzero
        simp [List.length_map, List.enum_length] at hlen
        exact hne hlen
      obtain ⟨x, hx⟩ := List.exists_mem_of_ne_nil _ hnil2
      refine ⟨x, hx, ?_⟩
      obtain ⟨y, _, rfl⟩ := List.mem_map.mp hx
      rfl

/-- The empty-ingredients payload used in the C9 witness. -/
def payEmpty : RecipePayload := ⟨none, "Toast", "bread", [], []⟩

/-- C9 witness: on the example store (which satisfies the invariant), a
create with the empty-ingredients payload is rejected and the store after a
create with a one-line payload satisfies the invariant; the admin create
with no inline entries is rejected. -/
theorem C9_ingredient_line_invariant_witness :
    RecipeViewSet.create exDB bob payEmpty 7 =
      (⟨400, some "validation error"⟩, exDB) ∧
    ingredientInvariant (RecipeViewSet.create exDB bob pay0 7).2 ∧
    adminCreateRecipe exDB 1 "Toast" "bread" [] 7 = none := by
  have h1 := C9_ingredient_line_invariant exDB bob payEmpty 1 7 "Toast" "bread" [] exDB
    (by unfold ingredientInvariant; decide)
  have h2 := C9_ingredient_line_invariant exDB bob pay0 1 7 "Toast" "bread" [] exDB
    (by unfold ingredientInvariant; decide)
  exact ⟨h1.1 rfl, h2.2.1, h1.2.2.1 rfl⟩

end Fgapp
